import Mathlib

/-!
Verification development for the prova repository: a shallow embedding of
the script classifier and admin-operation validator (src/txscript/standard.go)
and of the deterministic chain-construction harness
(src/blockchain/fullblocktests/generate.go), together with theorems settling
the specification claims about them.

Bytes are modelled as natural numbers, opcode streams as lists of parsed
operations.  Functions of the repository that live outside the two source
files (opcode predicates, payload extraction, parsing, hashing) are modelled
from the specification and marked as such in their doc comments.
-/

/-- A decoded script operation: an opcode byte value plus the pushed data
bytes (empty for non-push operations).  Mirrors txscript.parsedOpcode. -/
structure parsedOpcode where
  value : Nat
  data : List Nat
  deriving DecidableEq, Repr

/-- Default operation used for out-of-range indexing. -/
def opDefault : parsedOpcode := ⟨0, []⟩

/-- Opcode constant OP_0 (standard script opcode value). -/
def OP_0 : Nat := 0

/-- Opcode constant OP_PUSHDATA4 (standard script opcode value 78). -/
def OP_PUSHDATA4 : Nat := 78

/-- Opcode constant OP_1 (standard script opcode value 81). -/
def OP_1 : Nat := 81

/-- Opcode constant OP_2 (standard script opcode value 82). -/
def OP_2 : Nat := 82

/-- Opcode constant OP_3 (standard script opcode value 83). -/
def OP_3 : Nat := 83

/-- Opcode constant OP_16 (standard script opcode value 96). -/
def OP_16 : Nat := 96

/-- Opcode constant OP_RETURN (standard script opcode value 106). -/
def OP_RETURN : Nat := 106

/-- Opcode constant OP_DATA_34: pushes 34 bytes (value equals its length). -/
def OP_DATA_34 : Nat := 34

/-- Opcode constant OP_DATA_38: pushes 38 bytes (value equals its length). -/
def OP_DATA_38 : Nat := 38

/-- Modelled from the spec: the custom safe-multisig terminator opcode
OP_CHECKSAFEMULTISIG.  Its numeric byte value is defined in the opcode table,
which is not among the given sources; only its distinctness from the other
opcodes used here matters, so a fixed distinct value is used. -/
def OP_CHECKSAFEMULTISIG : Nat := 186

/-- Modelled from the spec: the thread-check opcode OP_CHECKTHREAD of the
administrative baton script.  Its numeric byte value is defined in the opcode
table, which is not among the given sources; a fixed distinct value is used. -/
def OP_CHECKTHREAD : Nat := 187

/-- Modelled from the spec: administrative operation byte OP_PROVISIONINGKEYADD.
The admin operation byte values come from the opcode table, which is not among
the given sources; eight fixed pairwise distinct values are used. -/
def OP_PROVISIONINGKEYADD : Nat := 188

/-- Modelled from the spec: administrative operation byte OP_PROVISIONINGKEYREVOKE. -/
def OP_PROVISIONINGKEYREVOKE : Nat := 189

/-- Modelled from the spec: administrative operation byte OP_ISSUINGKEYADD. -/
def OP_ISSUINGKEYADD : Nat := 190

/-- Modelled from the spec: administrative operation byte OP_ISSUINGKEYREVOKE. -/
def OP_ISSUINGKEYREVOKE : Nat := 191

/-- Modelled from the spec: administrative operation byte OP_VALIDATEKEYADD. -/
def OP_VALIDATEKEYADD : Nat := 192

/-- Modelled from the spec: administrative operation byte OP_VALIDATEKEYREVOKE. -/
def OP_VALIDATEKEYREVOKE : Nat := 193

/-- Modelled from the spec: administrative operation byte OP_WSPKEYADD. -/
def OP_WSPKEYADD : Nat := 194

/-- Modelled from the spec: administrative operation byte OP_WSPKEYREVOKE. -/
def OP_WSPKEYREVOKE : Nat := 195

/-- MaxDataCarrierSize from standard.go: maximum pushed-data bytes for a
nulldata script. -/
def MaxDataCarrierSize : Nat := 80

/-- Modelled from the spec: compressed public key length in bytes
(btcec.PubKeyBytesLenCompressed, defined outside the given sources). -/
def PubKeyBytesLenCompressed : Nat := 33

/-- Modelled from the spec: KeyID length in bytes (btcec.KeyIDSize, defined
outside the given sources; the spec fixes KeyIDs at 4 bytes). -/
def KeyIDSize : Nat := 4

/-- Modelled from the spec: predicate isSmallInt of the opcode helpers (not
among the given sources): true for OP_0 and OP_1 through OP_16. -/
def isSmallInt (v : Nat) : Bool :=
  v = OP_0 || (OP_1 ≤ v && v ≤ OP_16)

/-- Modelled from the spec: asSmallInt of the opcode helpers (not among the
given sources): OP_0 maps to 0, otherwise the opcode value minus (OP_1 - 1). -/
def asSmallInt (v : Nat) : Int :=
  if v = OP_0 then 0 else (v : Int) - ((OP_1 : Int) - 1)

/-- Modelled from the spec: predicate isUint32 of the opcode helpers (not
among the given sources): the operation can carry an unsigned 32-bit value,
i.e. it is a small integer opcode or a direct data push of at most 4 bytes
(a KeyID is a fixed-width 4-byte handle, pushed minimally). -/
def isUint32 (v : Nat) : Bool :=
  isSmallInt v || (1 ≤ v && v ≤ 4)

/-- Little-endian byte-list decoding used by the KeyID decoder model. -/
def leDecode : List Nat → Nat
  | [] => 0
  | b :: rest => b + 256 * leDecode rest

/-- Modelled from the spec: asInt32 of the opcode helpers (not among the
given sources): decodes the numeric value of a small-int opcode or of a data
push of at most 4 bytes; errors on longer data. -/
def asInt32 (pop : parsedOpcode) : Option Int :=
  if isSmallInt pop.value then some (asSmallInt pop.value)
  else if pop.data.length ≤ 4 then some (leDecode pop.data : Int)
  else none

/-- State threaded through the intervening-push scan of isGeneralAztec:
counts of recognized KeyID and key-hash pushes plus the KeyID values seen. -/
structure GAState where
  nKeyIDs : Nat
  nKeyHashes : Nat
  seen : List Int
  deriving DecidableEq, Repr

/-- One iteration of the intervening-push scan of isGeneralAztec
(standard.go lines 118-141): a 20-byte push is a key hash and must not follow
any KeyID; otherwise an operation recognized as a uint32 is a KeyID, which
must decode and must not repeat; any other operation is skipped. -/
def gaStep (st : GAState) (pop : parsedOpcode) : Option GAState :=
  if pop.data.length = 20 then
    if st.nKeyIDs > 0 then none
    else some { st with nKeyHashes := st.nKeyHashes + 1 }
  else if isUint32 pop.value then
    match asInt32 pop with
    | none => none
    | some keyID =>
      if st.seen.contains keyID then none
      else some { st with nKeyIDs := st.nKeyIDs + 1, seen := keyID :: st.seen }
  else some st

/-- The full intervening-push scan of isGeneralAztec, returning none exactly
when the loop in the source returns false early. -/
def gaLoop : GAState → List parsedOpcode → Option GAState
  | st, [] => some st
  | st, pop :: rest =>
    match gaStep st pop with
    | none => none
    | some st2 => gaLoop st2 rest

/-- isGeneralAztec from standard.go lines 81-154: recognizes the generalized
m-of-n administrative authorization script shape. -/
def isGeneralAztec (pops : List parsedOpcode) : Bool :=
  if pops.length < 6 then false
  else if !isSmallInt (pops.getD 0 opDefault).value then false
  else if !isSmallInt (pops.getD (pops.length - 2) opDefault).value then false
  else if (pops.getD (pops.length - 1) opDefault).value ≠ OP_CHECKSAFEMULTISIG then
    false
  else if asSmallInt (pops.getD 0 opDefault).value < 2 then false
  else if ((pops.length - 2 - 1 : Nat) : Int)
      ≠ asSmallInt (pops.getD (pops.length - 2) opDefault).value then false
  else
    match gaLoop ⟨0, 0, []⟩ ((pops.drop 1).take (pops.length - 3)) with
    | none => false
    | some st =>
      if (st.nKeyHashes : Int) ≥ asSmallInt (pops.getD 0 opDefault).value then false
      else if (st.nKeyIDs : Int) < asSmallInt (pops.getD 0 opDefault).value then false
      else true

/-- isAztec from standard.go lines 157-162: the fixed 2-of-3 shape. -/
def isAztec (pops : List parsedOpcode) : Bool :=
  pops.length = 6 &&
  (pops.getD 0 opDefault).value = OP_2 &&
  (pops.getD 4 opDefault).value = OP_3 &&
  isGeneralAztec pops

/-- isNullData from standard.go lines 285-298: a bare OP_RETURN, or OP_RETURN
followed by one bounded data push of at most MaxDataCarrierSize bytes. -/
def isNullData (pops : List parsedOpcode) : Bool :=
  if pops.length = 1 && (pops.getD 0 opDefault).value = OP_RETURN then true
  else
    pops.length = 2 &&
    (pops.getD 0 opDefault).value = OP_RETURN &&
    (pops.getD 1 opDefault).value ≤ OP_PUSHDATA4 &&
    (pops.getD 1 opDefault).data.length ≤ MaxDataCarrierSize

/-- Modelled from the spec: governance thread bound RootThread = 0
(rmgutil thread constants are not among the given sources; the spec fixes
Root=0, Provision=1, Issue=2). -/
def RootThread : Nat := 0

/-- Modelled from the spec: governance thread ProvisionThread = 1. -/
def ProvisionThread : Nat := 1

/-- Modelled from the spec: governance thread IssueThread = 2. -/
def IssueThread : Nat := 2

/-- isAztecAdmin from standard.go lines 221-234: exactly two operations, the
second OP_CHECKTHREAD, and the first decoding as a small integer thread
identifier between RootThread and IssueThread. -/
def isAztecAdmin (pops : List parsedOpcode) : Bool :=
  if pops.length ≠ 2 then false
  else if (pops.getD (pops.length - 1) opDefault).value ≠ OP_CHECKTHREAD then false
  else if asSmallInt (pops.getD 0 opDefault).value < (RootThread : Int) ||
      asSmallInt (pops.getD 0 opDefault).value > (IssueThread : Int) then false
  else true

/-- ScriptClass enumeration from standard.go lines 43-53. -/
inductive ScriptClass where
  | NonStandardTy
  | PubKeyTy
  | PubKeyHashTy
  | ScriptHashTy
  | MultiSigTy
  | NullDataTy
  | AztecTy
  | GeneralAztecTy
  | AztecAdminTy
  deriving DecidableEq, Repr

open ScriptClass

/-- typeOfScript from standard.go lines 308-319: classification precedence
NullData, then the fixed 2-of-3 shape, then the generalized shape, then the
admin thread script, and NonStandard otherwise. -/
def typeOfScript (pops : List parsedOpcode) : ScriptClass :=
  if isNullData pops then NullDataTy
  else if isAztec pops then AztecTy
  else if isGeneralAztec pops then GeneralAztecTy
  else if isAztecAdmin pops then AztecAdminTy
  else NonStandardTy

/-- GetScriptClass from standard.go lines 324-330, over the result of the
external ParseScript (which is not among the given sources): a parse failure
is modelled as none and classifies as NonStandard. -/
def GetScriptClassP : Option (List parsedOpcode) → ScriptClass
  | none => NonStandardTy
  | some pops => typeOfScript pops

/-- A 20-byte data push, counted as a key hash by the isGeneralAztec scan. -/
def isKeyHashPush (p : parsedOpcode) : Bool := p.data.length = 20

/-- An operation counted as a KeyID by the isGeneralAztec scan: not a 20-byte
push and recognized as a uint32 carrier. -/
def isKeyIDPush (p : parsedOpcode) : Bool := p.data.length ≠ 20 && isUint32 p.value

/-- The decoded KeyID value of an operation counted as a KeyID, if any. -/
def kidDecode (p : parsedOpcode) : Option Int :=
  if isKeyIDPush p then asInt32 p else none

/-- All key-hash pushes occur before all KeyID pushes: from the first KeyID
push onward no key-hash push appears. -/
def hashesPrecedeKeyIDs : List parsedOpcode → Bool
  | [] => true
  | p :: rest =>
    if isKeyIDPush p then (p :: rest).all (fun q => !isKeyHashPush q)
    else hashesPrecedeKeyIDs rest

/-- Initial state of the intervening-push scan. -/
def gaInit : GAState := ⟨0, 0, []⟩

/-- Declarative success condition of the intervening-push scan started in
state st: no key-hash push if a KeyID was already seen, key hashes precede
KeyIDs, every KeyID push decodes, the decoded KeyIDs are pairwise distinct
and none was seen before. -/
def gaOk (st : GAState) (l : List parsedOpcode) : Prop :=
  (st.nKeyIDs > 0 → l.all (fun p => !isKeyHashPush p) = true) ∧
  hashesPrecedeKeyIDs l = true ∧
  (∀ p ∈ l, isKeyIDPush p = true → (asInt32 p).isSome = true) ∧
  (l.filterMap kidDecode).Nodup ∧
  (∀ k ∈ l.filterMap kidDecode, k ∉ st.seen)

/-- The intervening operations of a candidate authorization script: all
operations strictly between the leading signature count and the trailing
key count. -/
def innerOps (pops : List parsedOpcode) : List parsedOpcode :=
  (pops.drop 1).take (pops.length - 3)

/-- Amended classification condition for the generalized administrative
authorization shape: as the original claim, except that intervening
operations that are neither 20-byte hash pushes nor recognized integer
(KeyID) pushes are skipped rather than forbidden, KeyID pushes are those
recognized as integer carriers of at most 4 bytes, and distinctness is over
the decoded KeyID values. -/
def C1Amended (pops : List parsedOpcode) : Prop :=
  6 ≤ pops.length ∧
  isSmallInt (pops.getD 0 opDefault).value = true ∧
  isSmallInt (pops.getD (pops.length - 2) opDefault).value = true ∧
  (pops.getD (pops.length - 1) opDefault).value = OP_CHECKSAFEMULTISIG ∧
  2 ≤ asSmallInt (pops.getD 0 opDefault).value ∧
  asSmallInt (pops.getD (pops.length - 2) opDefault).value = ((pops.length - 3 : Nat) : Int) ∧
  hashesPrecedeKeyIDs (innerOps pops) = true ∧
  (∀ p ∈ innerOps pops, isKeyIDPush p = true → (asInt32 p).isSome = true) ∧
  ((innerOps pops).filterMap kidDecode).Nodup ∧
  (((innerOps pops).countP (fun p => isKeyHashPush p) : Int)
      < asSmallInt (pops.getD 0 opDefault).value) ∧
  (asSmallInt (pops.getD 0 opDefault).value
      ≤ ((innerOps pops).countP (fun p => isKeyIDPush p) : Int))

/-- The classification condition exactly as the original claim states it:
every intervening operation is either a 20-byte hash push or a 4-byte KeyID
push, hashes precede KeyIDs, the KeyID byte strings are pairwise distinct,
and the hash and KeyID counts are bounded by the signature count. -/
def C1Claim (pops : List parsedOpcode) : Prop :=
  6 ≤ pops.length ∧
  isSmallInt (pops.getD 0 opDefault).value = true ∧
  isSmallInt (pops.getD (pops.length - 2) opDefault).value = true ∧
  (pops.getD (pops.length - 1) opDefault).value = OP_CHECKSAFEMULTISIG ∧
  2 ≤ asSmallInt (pops.getD 0 opDefault).value ∧
  asSmallInt (pops.getD (pops.length - 2) opDefault).value = ((pops.length - 3 : Nat) : Int) ∧
  (∀ p ∈ innerOps pops, p.data.length = 20 ∨ p.data.length = 4) ∧
  List.Pairwise (fun p q => p.data.length = 4 → q.data.length ≠ 20) (innerOps pops) ∧
  ((innerOps pops).filterMap
      (fun p => if p.data.length = 4 then some p.data else none)).Nodup ∧
  (((innerOps pops).countP (fun p => p.data.length = 20) : Int)
      < asSmallInt (pops.getD 0 opDefault).value) ∧
  (asSmallInt (pops.getD 0 opDefault).value
      ≤ ((innerOps pops).countP (fun p => p.data.length = 4) : Int))

/-- The admin-operation shape condition exactly as the original claim C2
states it: two operations, a return marker, then one push of 34 or 38 bytes. -/
def C2Claim (pops : List parsedOpcode) : Prop :=
  pops.length = 2 ∧
  (pops.getD 0 opDefault).value = OP_RETURN ∧
  ((pops.getD 1 opDefault).data.length = 34 ∨ (pops.getD 1 opDefault).data.length = 38)

/-- Shorthand for a bare opcode without data. -/
def opN (v : Nat) : parsedOpcode := ⟨v, []⟩

/-- A 20-byte key-hash push used in the concrete scripts below. -/
def hashPop : parsedOpcode := ⟨20, List.replicate 20 7⟩

/-- A KeyID push with the given 4 data bytes. -/
def kidPop (bs : List Nat) : parsedOpcode := ⟨4, bs⟩

/-- A 33-byte data push, recognized neither as key hash nor as KeyID. -/
def junkPop : parsedOpcode := ⟨33, List.replicate 33 9⟩

/-- Concrete operation sequence refuting claim C1: a generalized
authorization script that classifies as GeneralAztecTy although one
intervening operation is a 33-byte push. -/
def c1cex : List parsedOpcode :=
  [opN OP_2, hashPop, kidPop [1, 0, 0, 0], kidPop [2, 0, 0, 0], junkPop,
    opN 84, opN OP_CHECKSAFEMULTISIG]

/-- Concrete 3-of-3 generalized authorization script used as a witness. -/
def c1wit : List parsedOpcode :=
  [opN OP_3, kidPop [1, 0, 0, 0], kidPop [2, 0, 0, 0], kidPop [3, 0, 0, 0],
    opN OP_3, opN OP_CHECKSAFEMULTISIG]

/-- Concrete thread-baton script for the Root thread (thread ID 0), which
refutes claim C2: it classifies as AztecAdminTy without being a return
marker followed by a data push. -/
def c2cex : List parsedOpcode := [opN OP_0, opN OP_CHECKTHREAD]

/-- Concrete thread-baton script for the Issue thread (thread ID 2). -/
def c2wit : List parsedOpcode := [opN OP_2, opN OP_CHECKTHREAD]

/-- True exactly for the two WSP administrative operation bytes. -/
def isWspOpcode (b : Nat) : Bool :=
  b = OP_WSPKEYADD || b = OP_WSPKEYREVOKE

/-- True exactly for the eight administrative operation bytes. -/
def isAdminOpcodeByte (b : Nat) : Bool :=
  b = OP_PROVISIONINGKEYADD || b = OP_PROVISIONINGKEYREVOKE ||
  b = OP_ISSUINGKEYADD || b = OP_ISSUINGKEYREVOKE ||
  b = OP_VALIDATEKEYADD || b = OP_VALIDATEKEYREVOKE ||
  b = OP_WSPKEYADD || b = OP_WSPKEYREVOKE

/-- Modelled from the spec: ExtractAdminData (not among the given sources).
Decodes the administrative payload of a two-operation script: the payload is
the pushed data of the second operation, its first byte is the operation
byte, the rest is the key material.  Per the spec a payload of length 34
carries no KeyID and is only valid for non-WSP operations, a payload of
length 38 carries a KeyID and is only valid for WSP operations; any other
combination is an error, as is an unknown operation byte. -/
def ExtractAdminData (pops : List parsedOpcode) : Option (Nat × List Nat) :=
  if pops.length = 2 then
    if (pops.getD 1 opDefault).data.length = 0 then none
    else if !isAdminOpcodeByte ((pops.getD 1 opDefault).data.headD 0) then none
    else if isWspOpcode ((pops.getD 1 opDefault).data.headD 0) then
      if (pops.getD 1 opDefault).data.length
          = 1 + PubKeyBytesLenCompressed + KeyIDSize then
        some ((pops.getD 1 opDefault).data.headD 0, (pops.getD 1 opDefault).data.tail)
      else none
    else
      if (pops.getD 1 opDefault).data.length = 1 + PubKeyBytesLenCompressed then
        some ((pops.getD 1 opDefault).data.headD 0, (pops.getD 1 opDefault).data.tail)
      else none
  else none

/-- The thread-specific switch of IsValidAdminOp (standard.go lines 256-280)
on the decoded operation byte and the payload length: Root accepts the four
provisioning and issuing operations, Provision accepts the validate
operations and, with a 38-byte payload, the WSP operations, Issue accepts
nothing. -/
def adminOpLegalCheck (threadID op dataLen : Nat) : Bool :=
  if threadID = RootThread then
    op = OP_PROVISIONINGKEYADD || op = OP_PROVISIONINGKEYREVOKE ||
    op = OP_ISSUINGKEYADD || op = OP_ISSUINGKEYREVOKE
  else if threadID = ProvisionThread then
    (op = OP_VALIDATEKEYADD || op = OP_VALIDATEKEYREVOKE) ||
    ((op = OP_WSPKEYADD || op = OP_WSPKEYREVOKE) &&
      (dataLen = 1 + PubKeyBytesLenCompressed + KeyIDSize))
  else false

/-- IsValidAdminOp from standard.go lines 238-281: shape checks (two
operations, return marker, 34- or 38-byte push opcode), payload extraction,
then the thread-specific operation switch; WSP operations on the provision
thread additionally require a 38-byte payload. -/
def IsValidAdminOp (pops : List parsedOpcode) (threadID : Nat) : Bool :=
  if pops.length ≠ 2 then false
  else if (pops.getD 0 opDefault).value ≠ OP_RETURN then false
  else if (pops.getD 1 opDefault).value ≠ OP_DATA_34 &&
          (pops.getD 1 opDefault).value ≠ OP_DATA_38 then false
  else
    match ExtractAdminData pops with
    | none => false
    | some (op, _) =>
      adminOpLegalCheck threadID op (pops.getD 1 opDefault).data.length

/-- The operation bytes legal on each governance thread per the spec mapping:
Root gets the provisioning and issuing operations, Provision gets the
validate and WSP operations, Issue gets none. -/
def legalOpsForThread (threadID : Nat) : List Nat :=
  if threadID = RootThread then
    [OP_PROVISIONINGKEYADD, OP_PROVISIONINGKEYREVOKE,
      OP_ISSUINGKEYADD, OP_ISSUINGKEYREVOKE]
  else if threadID = ProvisionThread then
    [OP_VALIDATEKEYADD, OP_VALIDATEKEYREVOKE, OP_WSPKEYADD, OP_WSPKEYREVOKE]
  else []

/-- Modelled from the spec: ExtractThreadID (not among the given sources).
Reads the thread identifier of a two-operation baton script
push(threadID) OP_CHECKTHREAD; errors when the script does not have that
shape or the identifier is outside the three governance threads. -/
def ExtractThreadID (pops : List parsedOpcode) : Option Int :=
  if pops.length = 2 && (pops.getD 1 opDefault).value = OP_CHECKTHREAD then
    let t := asSmallInt (pops.getD 0 opDefault).value
    if (RootThread : Int) ≤ t && t ≤ (IssueThread : Int) then some t else none
  else none

/-- GetAdminDetails from standard.go lines 192-218, over the per-output
results of the external ParseScript (a parse failure modelled as none):
fails with thread -1 and no outputs unless there is a first output, it
parses, classifies as the admin thread script and yields a thread ID, and
every remaining output parses; on success returns the thread ID and the
parsed remaining outputs. -/
def GetAdminDetails (txOuts : List (Option (List parsedOpcode))) :
    Int × Option (List (List parsedOpcode)) :=
  if txOuts.length < 1 then (-1, none)
  else
    match txOuts.getD 0 none with
    | none => (-1, none)
    | some pops =>
      if typeOfScript pops ≠ ScriptClass.AztecAdminTy then (-1, none)
      else
        match ExtractThreadID pops with
        | none => (-1, none)
        | some threadID =>
          match (txOuts.drop 1).mapM id with
          | none => (-1, none)
          | some adminOutputs => (threadID, some adminOutputs)

/-- The classification table in the precedence order the specification
states: NullData, then the standard 2-of-3 shape, then the generalized
shape, then the admin thread script. -/
def classChecks : List (ScriptClass × (List parsedOpcode → Bool)) :=
  [(ScriptClass.NullDataTy, isNullData),
   (ScriptClass.AztecTy, isAztec),
   (ScriptClass.GeneralAztecTy, isGeneralAztec),
   (ScriptClass.AztecAdminTy, isAztecAdmin)]

/-- Specification-side classifier: the first class of the precedence table
whose predicate matches, NonStandard when none does. -/
def classifySpec (pops : List parsedOpcode) : ScriptClass :=
  match classChecks.find? (fun c => c.2 pops) with
  | some c => c.1
  | none => ScriptClass.NonStandardTy

/-- A 34-byte admin payload (operation byte plus 33 key bytes). -/
def adminData34 (op : Nat) : List Nat := op :: List.replicate 33 5

/-- A 38-byte admin payload (operation byte, 33 key bytes, 4 KeyID bytes). -/
def adminData38 (op : Nat) : List Nat := op :: (List.replicate 33 5 ++ [1, 0, 0, 0])

/-- Concrete admin-operation script carrying an issuing-key-add payload. -/
def c3wit : List parsedOpcode :=
  [opN OP_RETURN, ⟨OP_DATA_34, adminData34 OP_ISSUINGKEYADD⟩]

/-- Concrete admin-operation script carrying a WSP-key-add payload of
length 34, used to exercise the mismatched-length rejection. -/
def c4wit : List parsedOpcode :=
  [opN OP_RETURN, ⟨OP_DATA_34, adminData34 OP_WSPKEYADD⟩]

/-- Concrete admin transaction refuting the claim that a single-output
transaction fails: its only output is the Root thread baton script. -/
def c5tx : List (Option (List parsedOpcode)) := [some c2cex]

/-- Block header model (wire.BlockHeader): the fields read or written by the
generator.  Hashes and signatures are opaque numbers. -/
structure BlockHeader where
  version : Nat
  prevBlock : Nat
  merkleRoot : Nat
  bits : Nat
  timestamp : Int
  height : Nat
  nonce : Nat
  size : Nat
  sig : Nat
  deriving DecidableEq, Repr

/-- Block model (wire.MsgBlock): a header plus a transaction list.
Transactions are opaque identifiers, since their wire structure is built by
external packages. -/
structure MsgBlock where
  header : BlockHeader
  transactions : List Nat
  deriving DecidableEq, Repr

/-- External collaborators of the generator, all outside the given sources:
merkle-tree computation, block identity hashing, serialization size, header
signing, transaction construction and spendable-output references.  Modelled
as opaque functions. -/
structure Externals where
  calcMerkleRoot : List Nat → Nat
  blockHash : MsgBlock → Nat
  serializeSize : MsgBlock → Nat
  signHeader : BlockHeader → Nat
  createCoinbaseTx : Nat → Nat
  createSpendTx : Nat → Nat
  mkOut : MsgBlock → Nat → Nat → Nat
  powLimitBits : Nat
  now : Int

/-- Newest-first association lookup modelling a Go map read. -/
def lookupName {α : Type} (m : List (String × α)) (k : String) : Option α :=
  (m.find? (fun e => e.1 = k)).map (fun e => e.2)

/-- Generator state (testGenerator from generate.go lines 191-206).  The tip
is an optional block: a Go nil pointer is modelled as none, and reads of a
nil tip are modelled as errors. -/
structure testGenerator where
  tip : Option MsgBlock
  tipName : String
  tipHeight : Nat
  blocks : List (Nat × MsgBlock)
  blocksByName : List (String × MsgBlock)
  blockHeights : List (String × Nat)
  spendableOuts : List Nat
  deriving DecidableEq, Repr

/-- The genesis block after the header signing performed by
makeTestGenerator (generate.go line 212). -/
def signedGenesis (E : Externals) (genesis : MsgBlock) : MsgBlock :=
  { genesis with header := { genesis.header with sig := E.signHeader genesis.header } }

/-- makeTestGenerator from generate.go lines 210-224: initial state with the
signed genesis block registered under the name genesis at height 0. -/
def makeTestGenerator (E : Externals) (genesis : MsgBlock) : testGenerator :=
  let gen := signedGenesis E genesis
  { tip := some gen, tipName := "genesis", tipHeight := 0,
    blocks := [(E.blockHash gen, gen)],
    blocksByName := [("genesis", gen)],
    blockHeights := [("genesis", 0)],
    spendableOuts := [] }

/-- The draft block assembled by nextBlock before munging (generate.go lines
499-534): coinbase (plus optional spend transaction), deterministic
timestamp, zero nonce sentinel, merkle root of the initial transactions. -/
def draftBlock (E : Externals) (g : testGenerator) (tip : MsgBlock)
    (spend : Option Nat) : MsgBlock :=
  let nextHeight := g.tipHeight + 1
  let coinbaseTx := E.createCoinbaseTx nextHeight
  let txns := match spend with
    | none => [coinbaseTx]
    | some s => [coinbaseTx, E.createSpendTx s]
  let ts : Int := if nextHeight = 1 then E.now else tip.header.timestamp + 120
  { header :=
      { version := 1,
        prevBlock := E.blockHash tip,
        merkleRoot := E.calcMerkleRoot txns,
        bits := E.powLimitBits,
        timestamp := ts,
        height := nextHeight,
        nonce := 0,
        size := 0,
        sig := 0 },
    transactions := txns }

/-- Application of the munge functions in order (generate.go lines 540-542). -/
def mungedOf (draft : MsgBlock) (mungers : List (MsgBlock → MsgBlock)) : MsgBlock :=
  mungers.foldl (fun b f => f b) draft

/-- The post-munging sealing steps of nextBlock before solving (generate.go
lines 543-547): recompute the merkle root only if no munger changed it away
from the draft value, then set the serialized size and sign the header. -/
def sealBlock (E : Externals) (draft munged : MsgBlock) : MsgBlock :=
  let b1 := if munged.header.merkleRoot = draft.header.merkleRoot
    then { munged with header :=
      { munged.header with merkleRoot := E.calcMerkleRoot munged.transactions } }
    else munged
  let b2 := { b1 with header := { b1.header with size := E.serializeSize b1 } }
  { b2 with header := { b2.header with sig := E.signHeader b2.header } }

/-- Header nonce replacement, as solveBlock performs on success. -/
def withNonce (b : MsgBlock) (k : Nat) : MsgBlock :=
  { b with header := { b.header with nonce := k } }

/-- The generator-state update and return value at the end of nextBlock
(generate.go lines 555-563): registers the block under its hash and name
and advances the tip. -/
def finishState (E : Externals) (g : testGenerator) (blockName : String)
    (blk : MsgBlock) : testGenerator × MsgBlock :=
  ({ g with
      blocks := (E.blockHash blk, blk) :: g.blocks,
      blocksByName := (blockName, blk) :: g.blocksByName,
      blockHeights := (blockName, g.tipHeight + 1) :: g.blockHeights,
      tip := some blk,
      tipName := blockName,
      tipHeight := g.tipHeight + 1 }, blk)

/-- nextBlock from generate.go lines 496-564.  The proof-of-work search is an
oracle argument (its internals are concurrent; they are modelled separately
by the solver definitions below): it is consulted only when no munger moved
the nonce away from the zero sentinel held by the draft, and the panic on
solver failure is an error result.  A nil tip dereference is also an error
result. -/
def nextBlock (E : Externals) (solveOracle : BlockHeader → Option Nat)
    (g : testGenerator) (blockName : String) (spend : Option Nat)
    (mungers : List (MsgBlock → MsgBlock)) :
    Except String (testGenerator × MsgBlock) :=
  match g.tip with
  | none => Except.error "runtime error: nil pointer dereference"
  | some tip =>
    let draft := draftBlock E g tip spend
    let munged := mungedOf draft mungers
    let sealed := sealBlock E draft munged
    let solvedE : Except String MsgBlock :=
      if sealed.header.nonce = draft.header.nonce then
        match solveOracle sealed.header with
        | some n => Except.ok (withNonce sealed n)
        | none =>
          Except.error ("Unable to solve block at height "
            ++ toString (g.tipHeight + 1))
      else Except.ok sealed
    match solvedE with
    | Except.error e => Except.error e
    | Except.ok blk => Except.ok (finishState E g blockName blk)

/-- setTip from generate.go lines 569-573: repoints the tip by name through
the two map reads; a missing name yields the zero values none and 0. -/
def setTip (g : testGenerator) (blockName : String) : testGenerator :=
  { g with tip := lookupName g.blocksByName blockName,
           tipName := blockName,
           tipHeight := (lookupName g.blockHeights blockName).getD 0 }

/-- saveTipCoinbaseOut from generate.go lines 585-588; reading a nil tip is
an error result. -/
def saveTipCoinbaseOut (E : Externals) (g : testGenerator) :
    Except String testGenerator :=
  match g.tip with
  | none => Except.error "runtime error: nil pointer dereference"
  | some tip =>
    Except.ok { g with spendableOuts := g.spendableOuts ++ [E.mkOut tip 0 0] }

/-- oldestCoinbaseOut from generate.go lines 577-581; popping from the empty
list is the index-out-of-range panic, an error result. -/
def oldestCoinbaseOut (g : testGenerator) :
    Except String (Nat × testGenerator) :=
  match g.spendableOuts with
  | [] => Except.error "runtime error: index out of range"
  | o :: rest => Except.ok (o, { g with spendableOuts := rest })

/-- The unsigned 32-bit modulus of the nonce arithmetic in solveBlock. -/
def uint32Mod : Nat := 2 ^ 32

/-- The largest unsigned 32-bit value, the stop nonce of solveBlock. -/
def maxUint32 : Nat := 2 ^ 32 - 1

/-- Header with the candidate nonce written in, as each solver worker does
on its private header copy. -/
def setNonce (hdr : BlockHeader) (n : Nat) : BlockHeader :=
  { hdr with nonce := n }

/-- Nonces per worker from solveBlock line 374: the nonce span divided by
the worker count, in integer division. -/
def solverNpc (numCores : Nat) : Nat := (maxUint32 - 1) / numCores

/-- Start of the nonce range of worker i (solveBlock line 376), with the
unsigned 32-bit wraparound of the source made explicit. -/
def rangeStart (numCores i : Nat) : Nat :=
  (1 + solverNpc numCores * i) % uint32Mod

/-- Stop of the nonce range of worker i (solveBlock lines 377-380): one before
the next range start, except that the last worker stops at the maximal
nonce. -/
def rangeStop (numCores i : Nat) : Nat :=
  if i = numCores - 1 then maxUint32
  else ((1 + solverNpc numCores * (i + 1)) % uint32Mod + (uint32Mod - 1)) % uint32Mod

/-- The success test of one candidate nonce (solveBlock lines 360-362): the
block identity hash of the header with that nonce, read as a big integer,
is at most the compact target.  The hash is an oracle argument. -/
def solveCond (hashH : BlockHeader → Nat) (target : Nat) (hdr : BlockHeader)
    (n : Nat) : Bool :=
  hashH (setNonce hdr n) ≤ target

/-- Ascending scan of a nonce interval by remaining length, returning the
first nonce satisfying the condition. -/
def scanRange (cond : Nat → Bool) : Nat → Nat → Option Nat
  | 0, _ => none
  | fuel + 1, lo => if cond lo then some lo else scanRange cond fuel (lo + 1)

/-- First satisfying nonce in the inclusive interval, none when the
interval is exhausted: the result a solver worker sends for its range. -/
def firstHit (cond : Nat → Bool) (lo hi : Nat) : Option Nat :=
  scanRange cond (hi + 1 - lo) lo

/-- The result worker i of solveBlock reports for its range. -/
def workerResult (hashH : BlockHeader → Nat) (target : Nat) (hdr : BlockHeader)
    (numCores i : Nat) : Option Nat :=
  firstHit (solveCond hashH target hdr) (rangeStart numCores i)
    (rangeStop numCores i)

/-- A nonce solveBlock can report as its success: the first hit of some
worker range.  Which worker wins is decided by goroutine scheduling, so the
reported solution is any member of this set. -/
def solveReports (hashH : BlockHeader → Nat) (target : Nat) (hdr : BlockHeader)
    (numCores n : Nat) : Prop :=
  ∃ i, i < numCores ∧ workerResult hashH target hdr numCores i = some n

/-- Test-instance model (the TestInstance variants of generate.go): only
the bookkeeping fields the generator computes itself are carried. -/
inductive TestInstanceM where
  | acceptedBlock (name : String) (height : Nat) (isMainChain isOrphan : Bool)
  | rejectedBlock (name : String) (height : Nat) (code : Nat)
  | orphanOrRejectedBlock (name : String) (height : Nat)
  | expectedTip (name : String) (height : Nat)
  deriving DecidableEq, Repr

/-- The acceptBlock helper of Generate: an accepted-block instance for the
current tip, at the height recorded under its name. -/
def acceptI (g : testGenerator) (isMainChain isOrphan : Bool) : TestInstanceM :=
  TestInstanceM.acceptedBlock g.tipName
    ((lookupName g.blockHeights g.tipName).getD 0) isMainChain isOrphan

/-- The rejectBlock helper of Generate. -/
def rejectI (g : testGenerator) (code : Nat) : TestInstanceM :=
  TestInstanceM.rejectedBlock g.tipName
    ((lookupName g.blockHeights g.tipName).getD 0) code

/-- The expectTipBlock helper of Generate. -/
def expectTipI (g : testGenerator) (name : String) : TestInstanceM :=
  TestInstanceM.expectedTip name ((lookupName g.blockHeights name).getD 0)

/-- The additionalTx munge function from generate.go lines 397-401: appends
a transaction to the draft block. -/
def additionalTx (tx : Nat) (b : MsgBlock) : MsgBlock :=
  { b with transactions := b.transactions ++ [tx] }

/-- List indexing with the Go out-of-range panic as an error result. -/
def idxE (l : List Nat) (i : Nat) : Except String Nat :=
  match l.get? i with
  | some v => Except.ok v
  | none => Except.error "runtime error: index out of range"

/-- The coinbase-maturity loop of Generate (generate.go lines 729-736):
builds cbm blocks named bm0, bm1, ..., saving each tip coinbase output and
collecting one accepted-block instance per block. -/
def maturityLoop (E : Externals) (solveOracle : BlockHeader → Option Nat) :
    Nat → Nat → testGenerator → List TestInstanceM →
    Except String (testGenerator × List TestInstanceM)
  | 0, _, g, acc => Except.ok (g, acc)
  | k + 1, i, g, acc => do
    let (g2, _) ← nextBlock E solveOracle g ("bm" ++ toString i) none []
    let g3 ← saveTipCoinbaseOut E g2
    maturityLoop E solveOracle k (i + 1) g3 (acc ++ [acceptI g3 true false])

/-- The spendable-output collection loop of Generate (generate.go lines
740-743). -/
def collectLoop : Nat → testGenerator → List Nat →
    Except String (testGenerator × List Nat)
  | 0, g, outs => Except.ok (g, outs)
  | k + 1, g, outs => do
    let (op, g2) ← oldestCoinbaseOut g
    collectLoop k g2 (outs ++ [op])

/-- The scenario tail of Generate (generate.go lines 761-871): blocks b1
through b16 with the fork, reorg and double-spend steps.  The administrative
transactions it injects are built by external constructors and appear here
as opaque transaction identifiers; the spent outputs are read from the
collected list with the panicking index modelled as an error. -/
def buildPhase (E : Externals) (solveOracle : BlockHeader → Option Nat)
    (g : testGenerator) (outs : List Nat) :
    Except String (List (List TestInstanceM)) := do
  let o3 ← idxE outs 3
  let (g1, _) ← nextBlock E solveOracle g "b1" (some o3) []
  let t1 := [acceptI g1 true false]
  let o4 ← idxE outs 4
  let (g2, _) ← nextBlock E solveOracle g1 "b2" (some o4) []
  let t2 := [acceptI g2 true false]
  let _o0 ← idxE outs 0
  let (g3, _) ← nextBlock E solveOracle g2 "b3" none [additionalTx 9001]
  let t3 := [acceptI g3 true false]
  let (g4, _) ← nextBlock E solveOracle g3 "b4" none [additionalTx 9002]
  let t4 := [acceptI g4 true false]
  let (g5, _) ← nextBlock E solveOracle g4 "b5" none []
  let t5 := [acceptI g5 true false]
  let (g6, _) ← nextBlock E solveOracle g5 "b6" none
      [additionalTx 9003, additionalTx 9004]
  let t6 := [acceptI g6 true false]
  let _o6 ← idxE outs 6
  let (g7, _) ← nextBlock E solveOracle g6 "b7" none [additionalTx 9005]
  let t7 := [acceptI g7 true false]
  let o7 ← idxE outs 7
  let (g8, _) ← nextBlock E solveOracle g7 "b8" (some o7) []
  let t8 := [acceptI g8 true false]
  let o8 ← idxE outs 8
  let (g9, _) ← nextBlock E solveOracle g8 "b9" (some o8) []
  let t9 := [acceptI g9 true false]
  let (g10, _) ← nextBlock E solveOracle g9 "b10" none [additionalTx 9006]
  let t10 := [acceptI g10 true false]
  let g10b := setTip g10 "b9"
  let o9 ← idxE outs 9
  let (g11, _) ← nextBlock E solveOracle g10b "b11" (some o9) []
  let t11 := [acceptI g11 false false, expectTipI g11 "b10"]
  let o10 ← idxE outs 10
  let (g12, _) ← nextBlock E solveOracle g11 "b12" (some o10) []
  let t12 := [acceptI g12 true false]
  let g12b := setTip g12 "b10"
  let (g13, _) ← nextBlock E solveOracle g12b "b13" (some o10) []
  let t13 := [acceptI g13 false false, expectTipI g13 "b12"]
  let o11 ← idxE outs 11
  let (g14, _) ← nextBlock E solveOracle g13 "b14" (some o11) []
  let t14 := [acceptI g14 true false]
  let g14b := setTip g14 "b13"
  let (g15, _) ← nextBlock E solveOracle g14b "b15" (some o10) []
  let t15 := [acceptI g15 false false, expectTipI g15 "b14"]
  let o12 ← idxE outs 12
  let (g16, _) ← nextBlock E solveOracle g15 "b16" (some o12) []
  let t16 := [rejectI g16 1]
  pure [t1, t2, t3, t4, t5, t6, t7, t8, t9, t10, t11, t12, t13, t14, t15, t16]

/-- The body of Generate (generate.go lines 617-871): generator creation,
the three thread outputs of the genesis coinbase, the maturity loop, output
collection and the scenario tail.  The test groups are the maturity group
followed by the scenario groups, in construction order. -/
def generateBody (E : Externals) (solveOracle : BlockHeader → Option Nat)
    (genesis : MsgBlock) (cbm : Nat) :
    Except String (List (List TestInstanceM)) := do
  let g0 := makeTestGenerator E genesis
  let gen := signedGenesis E genesis
  let outs0 := [E.mkOut gen 0 0, E.mkOut gen 0 1, E.mkOut gen 0 2]
  let (g1, ti) ← maturityLoop E solveOracle cbm 0 g0 []
  let (g2, outs) ← collectLoop cbm g1 outs0
  let rest ← buildPhase E solveOracle g2 outs
  pure (ti :: rest)

/-- Generate from generate.go lines 597-616: the deferred recover turns any
internal panic into a nil test sequence plus the panic error; a normal
return yields the test groups and a nil error. -/
def GenerateM (E : Externals) (solveOracle : BlockHeader → Option Nat)
    (genesis : MsgBlock) (cbm : Nat) :
    Option (List (List TestInstanceM)) × Option String :=
  match generateBody E solveOracle genesis cbm with
  | Except.ok tests => (some tests, none)
  | Except.error e => (none, some e)

/-- Trivial concrete external collaborators used by the closed witness
statements. -/
def extWit : Externals :=
  { calcMerkleRoot := fun txs => txs.length,
    blockHash := fun b => b.header.height + 100,
    serializeSize := fun b => b.transactions.length,
    signHeader := fun _ => 3,
    createCoinbaseTx := fun h => h,
    createSpendTx := fun s => s + 1000,
    mkOut := fun b i j => b.header.height * 10 + i + j,
    powLimitBits := 5,
    now := 77 }

/-- Concrete genesis block used by the closed witness statements. -/
def genesisWit : MsgBlock :=
  { header :=
      { version := 1, prevBlock := 0, merkleRoot := 9, bits := 5,
        timestamp := 50, height := 0, nonce := 0, size := 0, sig := 0 },
    transactions := [0] }

/-- Decidability of the literal claim-C1 condition. -/
instance (pops : List parsedOpcode) : Decidable (C1Claim pops) := by
  unfold C1Claim
  exact inferInstance

/-- Decidability of the amended claim-C1 condition. -/
instance (pops : List parsedOpcode) : Decidable (C1Amended pops) := by
  unfold C1Amended
  exact inferInstance

/-- Decidability of the literal claim-C2 condition. -/
instance (pops : List parsedOpcode) : Decidable (C2Claim pops) := by
  unfold C2Claim
  exact inferInstance

/-- Decidability of the declarative scan condition. -/
instance (st : GAState) (l : List parsedOpcode) : Decidable (gaOk st l) := by
  unfold gaOk
  exact inferInstance

/-- C6: for every byte string, classification is total and yields exactly
one class: a parse failure classifies as NonStandard, and otherwise the
class is the first match in the precedence order NullData, StandardAdminAuth
(AztecTy), GeneralAdminAuth (GeneralAztecTy), AdminOp (AztecAdminTy), with
NonStandard when none match. -/
theorem spec_c6_classification_total :
    GetScriptClassP none = ScriptClass.NonStandardTy ∧
    ∀ pops, GetScriptClassP (some pops) = classifySpec pops := by
  refine ⟨rfl, ?_⟩
  intro pops
  unfold GetScriptClassP typeOfScript classifySpec classChecks
  cases h1 : isNullData pops <;> cases h2 : isAztec pops <;>
    cases h3 : isGeneralAztec pops <;> cases h4 : isAztecAdmin pops <;>
    simp [List.find?, h1, h2, h3, h4]

/-- C2 counterexample: the Root thread-baton script, two operations that are
not an OP_RETURN followed by a 34- or 38-byte push, classifies as the
AdminOp class even though it matches no higher-precedence class, refuting
the claimed shape characterization. -/
theorem spec_c2_counterexample :
    typeOfScript c2cex = ScriptClass.AztecAdminTy ∧
    isNullData c2cex = false ∧ isAztec c2cex = false ∧
    isGeneralAztec c2cex = false ∧ ¬ C2Claim c2cex := by decide

/-- C2 amended: for sequences matching no higher-precedence class, the
classifier returns the AdminOp class exactly when the sequence is the
thread-baton shape: exactly 2 operations, the first decoding as a small
integer thread ID between Root (0) and Issue (2), the second OP_CHECKTHREAD. -/
theorem spec_c2_adminop_class (pops : List parsedOpcode)
    (h1 : isNullData pops = false) (h2 : isAztec pops = false)
    (h3 : isGeneralAztec pops = false) :
    typeOfScript pops = ScriptClass.AztecAdminTy ↔
      (pops.length = 2 ∧
        (pops.getD 1 opDefault).value = OP_CHECKTHREAD ∧
        0 ≤ asSmallInt (pops.getD 0 opDefault).value ∧
        asSmallInt (pops.getD 0 opDefault).value ≤ 2) := by
  have hAD : isAztecAdmin pops = true ↔
      (pops.length = 2 ∧
        (pops.getD 1 opDefault).value = OP_CHECKTHREAD ∧
        0 ≤ asSmallInt (pops.getD 0 opDefault).value ∧
        asSmallInt (pops.getD 0 opDefault).value ≤ 2) := by
    unfold isAztecAdmin
    split_ifs with a b c
    · simp only [Bool.false_eq_true, false_iff]
      intro hc
      exact a hc.1
    · simp only [Bool.false_eq_true, false_iff]
      intro hc
      have hidx : pops.length - 1 = 1 := by omega
      rw [hidx] at b
      exact b hc.2.1
    · simp only [Bool.false_eq_true, false_iff]
      intro hc
      rw [Bool.or_eq_true, decide_eq_true_eq, decide_eq_true_eq] at c
      have h0 : ((RootThread : Nat) : Int) = 0 := by norm_num [RootThread]
      have h2i : ((IssueThread : Nat) : Int) = 2 := by norm_num [IssueThread]
      rw [h0, h2i] at c
      rcases c with c | c
      · exact absurd hc.2.2.1 (by omega)
      · exact absurd hc.2.2.2 (by omega)
    · simp only [true_iff]
      rw [Bool.or_eq_true, decide_eq_true_eq, decide_eq_true_eq] at c
      have h0 : ((RootThread : Nat) : Int) = 0 := by norm_num [RootThread]
      have h2i : ((IssueThread : Nat) : Int) = 2 := by norm_num [IssueThread]
      rw [h0, h2i] at c
      push_neg at c
      have hidx : pops.length - 1 = 1 := by omega
      rw [hidx] at b
      exact ⟨not_ne_iff.mp a, not_ne_iff.mp b, c.1, c.2⟩
  unfold typeOfScript
  rw [h1, h2, h3]
  simp only [Bool.false_eq_true, if_false]
  constructor
  · intro h
    by_cases hA : isAztecAdmin pops
    · exact hAD.mp hA
    · simp [hA] at h
  · intro h
    rw [if_pos (hAD.mpr h)]

/-- C2 amended witness: the Issue thread-baton script is classified as the
AdminOp class and has the amended shape. -/
theorem spec_c2_adminop_class_witness :
    typeOfScript c2wit = ScriptClass.AztecAdminTy ∧
    c2wit.length = 2 ∧
    (c2wit.getD 1 opDefault).value = OP_CHECKTHREAD ∧
    0 ≤ asSmallInt (c2wit.getD 0 opDefault).value ∧
    asSmallInt (c2wit.getD 0 opDefault).value ≤ 2 := by
  have h := spec_c2_adminop_class c2wit (by decide) (by decide) (by decide)
  exact ⟨h.mpr (by decide), by decide⟩

/-- C5 evaluation at the failing input: a transaction whose only output is
the Root thread-baton script makes GetAdminDetails report success with
thread 0 and an empty admin-output list, although the claim (and the
comment above the source function) requires failure when no output beyond
the first exists. -/
theorem spec_c5_single_output_succeeds :
    GetAdminDetails c5tx = ((0 : Int), some []) ∧ c5tx.length = 1 := by decide


/-- Facts carried by a successful payload extraction: the script has two
operations, the operation byte is the payload head and is an administrative
byte, and the payload length matches the WSP status of the operation byte. -/
theorem extract_some_facts (pops : List parsedOpcode) (op : Nat) (rest : List Nat)
    (hE : ExtractAdminData pops = some (op, rest)) :
    pops.length = 2 ∧
    (pops.getD 1 opDefault).data.headD 0 = op ∧
    isAdminOpcodeByte op = true ∧
    ((isWspOpcode op = true ∧ (pops.getD 1 opDefault).data.length = 38) ∨
      (isWspOpcode op = false ∧ (pops.getD 1 opDefault).data.length = 34)) := by
  unfold ExtractAdminData at hE
  split_ifs at hE with h1 h2 h3 h4 h5 h6 <;>
    first
      | exact Option.noConfusion hE
      | (simp only [Option.some.injEq, Prod.mk.injEq] at hE
         obtain ⟨hOp, hRest⟩ := hE
         subst hOp
         first
           | exact ⟨h1, rfl, by simpa using h3,
               Or.inl ⟨h4, by simpa [PubKeyBytesLenCompressed, KeyIDSize] using h5⟩⟩
           | exact ⟨h1, rfl, by simpa using h3,
               Or.inr ⟨by simpa using h4,
                 by simpa [PubKeyBytesLenCompressed] using h5⟩⟩
           | exact ⟨h1, rfl, by simpa using h3,
               Or.inr ⟨by simpa using h4,
                 by simpa [PubKeyBytesLenCompressed] using h6⟩⟩)

/-- On the Issue thread the thread switch authorizes nothing. -/
theorem adminOpLegalCheck_issue (op dataLen : Nat) :
    adminOpLegalCheck IssueThread op dataLen = false := by
  norm_num [adminOpLegalCheck, IssueThread, RootThread, ProvisionThread]

/-- C3: on every well-formed administrative-operation script (return marker,
34- or 38-byte payload push, successfully decoded payload) and every
governance thread, IsValidAdminOp accepts exactly when the decoded operation
byte is legal for that thread per the Root and Provision mappings; moreover
on the Issue thread IsValidAdminOp rejects every script whatsoever. -/
theorem spec_c3_thread_legality (pops : List parsedOpcode) (threadID : Nat)
    (op : Nat) (rest : List Nat)
    (hT : threadID ≤ IssueThread)
    (hR : (pops.getD 0 opDefault).value = OP_RETURN)
    (hP : (pops.getD 1 opDefault).value = OP_DATA_34 ∨
      (pops.getD 1 opDefault).value = OP_DATA_38)
    (hE : ExtractAdminData pops = some (op, rest)) :
    (IsValidAdminOp pops threadID = true ↔ op ∈ legalOpsForThread threadID) ∧
    (∀ qops, IsValidAdminOp qops IssueThread = false) := by
  have hIssue : ∀ qops, IsValidAdminOp qops IssueThread = false := by
    intro qops
    unfold IsValidAdminOp
    split_ifs with a b c
    · rfl
    · rfl
    · rfl
    · cases hQ : ExtractAdminData qops with
      | none => rfl
      | some pr =>
        obtain ⟨qop, qrest⟩ := pr
        exact adminOpLegalCheck_issue qop _
  refine ⟨?_, hIssue⟩
  obtain ⟨hL, hHead, hAdm, hLen⟩ := extract_some_facts pops op rest hE
  have hlen2 : ¬ (pops.length ≠ 2) := by omega
  have hret : ¬ ((pops.getD 0 opDefault).value ≠ OP_RETURN) := not_ne_iff.mpr hR
  have hpush : ¬ ((decide ((pops.getD 1 opDefault).value ≠ OP_DATA_34) &&
      decide ((pops.getD 1 opDefault).value ≠ OP_DATA_38)) = true) := by
    rcases hP with hP | hP <;> rw [hP] <;> decide
  unfold IsValidAdminOp
  rw [if_neg hlen2, if_neg hret, if_neg hpush, hE]
  have hT2 : threadID ≤ 2 := by simpa [IssueThread] using hT
  interval_cases threadID
  · norm_num [adminOpLegalCheck, legalOpsForThread, RootThread, ProvisionThread,
      List.mem_cons]
    tauto
  · norm_num [adminOpLegalCheck, legalOpsForThread, RootThread, ProvisionThread,
      List.mem_cons, PubKeyBytesLenCompressed, KeyIDSize]
    constructor
    · intro h
      tauto
    · rintro (h | h | h | h)
      · tauto
      · tauto
      · refine Or.inr ⟨Or.inl h, ?_⟩
        rcases hLen with ⟨_, h38⟩ | ⟨hw, _⟩
        · simpa using h38
        · subst h
          exact absurd hw (by norm_num [isWspOpcode, OP_WSPKEYADD])
      · refine Or.inr ⟨Or.inr h, ?_⟩
        rcases hLen with ⟨_, h38⟩ | ⟨hw, _⟩
        · simpa using h38
        · subst h
          exact absurd hw (by norm_num [isWspOpcode, OP_WSPKEYADD, OP_WSPKEYREVOKE])
  · norm_num [adminOpLegalCheck, legalOpsForThread, RootThread, ProvisionThread]

/-- C3 witness: an issuing-key-add admin script is accepted on the Root
thread, and scripts are rejected on the Issue thread. -/
theorem spec_c3_thread_legality_witness :
    IsValidAdminOp c3wit RootThread = true ∧
    IsValidAdminOp c3wit IssueThread = false := by
  have h := spec_c3_thread_legality c3wit RootThread OP_ISSUINGKEYADD
    (List.replicate 33 5) (by decide) (by decide) (Or.inl (by decide)) (by decide)
  exact ⟨h.1.mpr (by decide), h.2 c3wit⟩

/-- C4: admin-op validation rejects every script whose payload pairs a WSP
operation byte with a length other than 38, or a non-WSP operation byte
with length 38, on every thread. -/
theorem spec_c4_length_opcode_mismatch (pops : List parsedOpcode) (threadID : Nat)
    (h : (isWspOpcode ((pops.getD 1 opDefault).data.headD 0) = true ∧
          (pops.getD 1 opDefault).data.length ≠ 38) ∨
         (isWspOpcode ((pops.getD 1 opDefault).data.headD 0) = false ∧
          (pops.getD 1 opDefault).data.length = 38)) :
    IsValidAdminOp pops threadID = false := by
  have hnone : ExtractAdminData pops = none := by
    cases hQ : ExtractAdminData pops with
    | none => rfl
    | some pr =>
      obtain ⟨op, rest⟩ := pr
      obtain ⟨hL, hHead, hAdm, hLen⟩ := extract_some_facts pops op rest hQ
      exfalso
      subst hHead
      rcases h with ⟨hw, hne⟩ | ⟨hw, heq⟩ <;>
        rcases hLen with ⟨hw2, hlen⟩ | ⟨hw2, hlen⟩
      · exact hne hlen
      · rw [hw] at hw2
        exact Bool.noConfusion hw2
      · rw [hw] at hw2
        exact Bool.noConfusion hw2
      · rw [heq] at hlen
        omega
  unfold IsValidAdminOp
  split_ifs <;> try rfl
  rw [hnone]

/-- C4 witness: a WSP-key-add payload of length 34 is rejected on the
Provision thread. -/
theorem spec_c4_length_opcode_mismatch_witness :
    IsValidAdminOp c4wit ProvisionThread = false :=
  spec_c4_length_opcode_mismatch c4wit ProvisionThread (Or.inl ⟨by decide, by decide⟩)

/-- A recognized KeyID push is not a key-hash push. -/
theorem keyHash_false_of_kid (p : parsedOpcode) (h : isKeyIDPush p = true) :
    isKeyHashPush p = false := by
  unfold isKeyIDPush at h
  rcases (Bool.and_eq_true _ _).mp h with ⟨h1, _⟩
  unfold isKeyHashPush
  simpa using h1

/-- A 20-byte push is not recognized as a KeyID push. -/
theorem kid_false_of_20 (p : parsedOpcode) (h : p.data.length = 20) :
    isKeyIDPush p = false := by
  unfold isKeyIDPush
  simp [h]

/-- kidDecode yields nothing on non-KeyID operations. -/
theorem kidDecode_of_not_kid (p : parsedOpcode) (h : isKeyIDPush p = false) :
    kidDecode p = none := by
  unfold kidDecode
  simp [h]

/-- kidDecode is asInt32 on KeyID operations. -/
theorem kidDecode_of_kid (p : parsedOpcode) (h : isKeyIDPush p = true) :
    kidDecode p = asInt32 p := by
  unfold kidDecode
  simp [h]

/-- Unfolding equation of the precedence scan on a nonempty list. -/
theorem hpk_cons (p : parsedOpcode) (l : List parsedOpcode) :
    hashesPrecedeKeyIDs (p :: l) =
      if isKeyIDPush p = true then (p :: l).all (fun q => !isKeyHashPush q)
      else hashesPrecedeKeyIDs l := rfl

/-- The precedence scan ignores a leading non-KeyID operation. -/
theorem hpk_cons_not_kid (p : parsedOpcode) (l : List parsedOpcode)
    (h : isKeyIDPush p = false) :
    hashesPrecedeKeyIDs (p :: l) = hashesPrecedeKeyIDs l := by
  rw [hpk_cons, if_neg]
  simp [h]

/-- From a leading KeyID push onward, the precedence condition is that no
key-hash push remains. -/
theorem hpk_cons_kid (p : parsedOpcode) (l : List parsedOpcode)
    (h : isKeyIDPush p = true) :
    hashesPrecedeKeyIDs (p :: l) = l.all (fun q => !isKeyHashPush q) := by
  rw [hpk_cons, if_pos h, List.all_cons, keyHash_false_of_kid p h]
  simp

/-- A hash-free list satisfies the precedence condition. -/
theorem hpk_of_all_not_hash :
    ∀ l : List parsedOpcode, l.all (fun q => !isKeyHashPush q) = true →
      hashesPrecedeKeyIDs l = true := by
  intro l
  induction l with
  | nil => intro _; rfl
  | cons q rest ih =>
    intro h
    rw [List.all_cons] at h
    obtain ⟨hq, hr⟩ := (Bool.and_eq_true _ _).mp h
    unfold hashesPrecedeKeyIDs
    by_cases hk : isKeyIDPush q = true
    · rw [if_pos hk, List.all_cons, hq]
      simpa using hr
    · rw [if_neg hk]
      exact ih hr

/-- The hash branch of the scan step. -/
theorem gaStep_hash (st : GAState) (p : parsedOpcode) (h20 : p.data.length = 20) :
    gaStep st p = if st.nKeyIDs > 0 then none
      else some { st with nKeyHashes := st.nKeyHashes + 1 } := by
  unfold gaStep
  rw [if_pos h20]

/-- The skip branch of the scan step. -/
theorem gaStep_other (st : GAState) (p : parsedOpcode) (h20 : ¬ p.data.length = 20)
    (hU : isUint32 p.value = false) :
    gaStep st p = some st := by
  unfold gaStep
  rw [if_neg h20]
  simp [hU]

/-- The KeyID branch of the scan step. -/
theorem gaStep_kid (st : GAState) (p : parsedOpcode) (h20 : ¬ p.data.length = 20)
    (hU : isUint32 p.value = true) :
    gaStep st p = match asInt32 p with
      | none => none
      | some k =>
        if st.seen.contains k then none
        else some { st with nKeyIDs := st.nKeyIDs + 1, seen := k :: st.seen } := by
  unfold gaStep
  rw [if_neg h20, if_pos hU]

/-- Soundness of the scan: a completed scan implies the declarative
condition on the start state and the scanned list. -/
theorem gaLoop_sound : ∀ (l : List parsedOpcode) (st st2 : GAState),
    gaLoop st l = some st2 → gaOk st l := by
  intro l
  induction l with
  | nil =>
    intro st st2 _
    exact ⟨fun _ => rfl, rfl, fun p hp => absurd hp (List.not_mem_nil p),
      List.nodup_nil, fun k hk => absurd hk (List.not_mem_nil k)⟩
  | cons p rest ih =>
    intro st st2 hLoop
    simp only [gaLoop] at hLoop
    cases hStep : gaStep st p with
    | none =>
      simp only [hStep] at hLoop
      exact Option.noConfusion hLoop
    | some st1 =>
      simp only [hStep] at hLoop
      by_cases h20 : p.data.length = 20
      · rw [gaStep_hash st p h20] at hStep
        by_cases hk0 : st.nKeyIDs > 0
        · rw [if_pos hk0] at hStep
          exact Option.noConfusion hStep
        · rw [if_neg hk0] at hStep
          injection hStep with hst1
          subst hst1
          have hOk1 := ih _ st2 hLoop
          have hkid : isKeyIDPush p = false := kid_false_of_20 p h20
          have hfm : List.filterMap kidDecode (p :: rest)
              = List.filterMap kidDecode rest := by
            simp [List.filterMap_cons, kidDecode_of_not_kid p hkid]
          refine ⟨?_, ?_, ?_, ?_, ?_⟩
          · intro hgt
            exact absurd hgt hk0
          · rw [hpk_cons_not_kid p rest hkid]
            exact hOk1.2.1
          · intro q hq hkq
            rcases List.mem_cons.mp hq with rfl | hq2
            · rw [hkid] at hkq
              exact Bool.noConfusion hkq
            · exact hOk1.2.2.1 q hq2 hkq
          · rw [hfm]
            exact hOk1.2.2.2.1
          · intro k hk
            rw [hfm] at hk
            exact hOk1.2.2.2.2 k hk
      · by_cases hU : isUint32 p.value = true
        · rw [gaStep_kid st p h20 hU] at hStep
          cases hDec : asInt32 p with
          | none =>
            simp only [hDec] at hStep
            exact Option.noConfusion hStep
          | some k =>
            simp only [hDec] at hStep
            by_cases hCon : st.seen.contains k = true
            · rw [if_pos hCon] at hStep
              exact Option.noConfusion hStep
            · rw [if_neg hCon] at hStep
              injection hStep with hst1
              subst hst1
              have hOk1 := ih _ st2 hLoop
              have hkid : isKeyIDPush p = true := by
                unfold isKeyIDPush
                simp [h20, hU]
              have hfm : List.filterMap kidDecode (p :: rest)
                  = k :: List.filterMap kidDecode rest := by
                simp [List.filterMap_cons, kidDecode_of_kid p hkid, hDec]
              have hNotMem : k ∉ st.seen := by
                intro hmem
                exact hCon (by simpa using hmem)
              have hRestAll : rest.all (fun q => !isKeyHashPush q) = true :=
                hOk1.1 (Nat.succ_pos _)
              refine ⟨?_, ?_, ?_, ?_, ?_⟩
              · intro _
                rw [List.all_cons, keyHash_false_of_kid p hkid]
                simpa using hRestAll
              · rw [hpk_cons_kid p rest hkid]
                exact hRestAll
              · intro q hq hkq
                rcases List.mem_cons.mp hq with rfl | hq2
                · rw [hDec]
                  rfl
                · exact hOk1.2.2.1 q hq2 hkq
              · rw [hfm, List.nodup_cons]
                refine ⟨?_, hOk1.2.2.2.1⟩
                intro hmem
                exact hOk1.2.2.2.2 k hmem (List.mem_cons_self k st.seen)
              · intro k2 hk2
                rw [hfm] at hk2
                rcases List.mem_cons.mp hk2 with rfl | hk2r
                · exact hNotMem
                · intro hmem
                  exact hOk1.2.2.2.2 k2 hk2r (List.mem_cons_of_mem k hmem)
        · have hUf : isUint32 p.value = false := by simpa using hU
          rw [gaStep_other st p h20 hUf] at hStep
          injection hStep with hst1
          subst hst1
          have hOk1 := ih _ st2 hLoop
          have hkid : isKeyIDPush p = false := by
            unfold isKeyIDPush
            simp [hUf]
          have hhash : isKeyHashPush p = false := by
            unfold isKeyHashPush
            simp [h20]
          have hfm : List.filterMap kidDecode (p :: rest)
              = List.filterMap kidDecode rest := by
            simp [List.filterMap_cons, kidDecode_of_not_kid p hkid]
          refine ⟨?_, ?_, ?_, ?_, ?_⟩
          · intro hgt
            rw [List.all_cons, hhash]
            simpa using hOk1.1 hgt
          · rw [hpk_cons_not_kid p rest hkid]
            exact hOk1.2.1
          · intro q hq hkq
            rcases List.mem_cons.mp hq with rfl | hq2
            · rw [hkid] at hkq
              exact Bool.noConfusion hkq
            · exact hOk1.2.2.1 q hq2 hkq
          · rw [hfm]
            exact hOk1.2.2.2.1
          · intro k hk
            rw [hfm] at hk
            exact hOk1.2.2.2.2 k hk

/-- Completeness of the scan: under the declarative condition the scan
finishes, with the counts and seen-set it accumulates made explicit. -/
theorem gaLoop_complete : ∀ (l : List parsedOpcode) (st : GAState), gaOk st l →
    gaLoop st l = some ⟨st.nKeyIDs + l.countP (fun q => isKeyIDPush q),
      st.nKeyHashes + l.countP (fun q => isKeyHashPush q),
      (l.filterMap kidDecode).reverse ++ st.seen⟩ := by
  intro l
  induction l with
  | nil =>
    intro st _
    cases st with
    | mk a b c =>
      simp [gaLoop]
  | cons p rest ih =>
    intro st hOk
    obtain ⟨h1, h2, h3, h4, h5⟩ := hOk
    by_cases h20 : p.data.length = 20
    · have hhash : isKeyHashPush p = true := by
        unfold isKeyHashPush
        simp [h20]
      have hk0 : ¬ st.nKeyIDs > 0 := by
        intro hgt
        have hall := h1 hgt
        rw [List.all_cons, hhash] at hall
        simp at hall
      have hkid : isKeyIDPush p = false := kid_false_of_20 p h20
      have hfm : List.filterMap kidDecode (p :: rest)
          = List.filterMap kidDecode rest := by
        simp [List.filterMap_cons, kidDecode_of_not_kid p hkid]
      have hOkTail : gaOk { st with nKeyHashes := st.nKeyHashes + 1 } rest := by
        refine ⟨fun hgt => absurd hgt hk0, ?_, ?_, ?_, ?_⟩
        · rw [hpk_cons_not_kid p rest hkid] at h2
          exact h2
        · intro q hq hkq
          exact h3 q (List.mem_cons_of_mem p hq) hkq
        · rw [hfm] at h4
          exact h4
        · intro k hk
          apply h5
          rw [hfm]
          exact hk
      simp only [gaLoop, gaStep_hash st p h20, if_neg hk0]
      rw [ih _ hOkTail]
      simp only [Option.some.injEq, GAState.mk.injEq]
      refine ⟨?_, ?_, ?_⟩
      · simp [List.countP_cons, hkid]
      · simp [List.countP_cons, hhash]
        omega
      · rw [hfm]
    · by_cases hU : isUint32 p.value = true
      · have hkid : isKeyIDPush p = true := by
          unfold isKeyIDPush
          simp [h20, hU]
        have hhash : isKeyHashPush p = false := keyHash_false_of_kid p hkid
        have hDecS : (asInt32 p).isSome = true :=
          h3 p (List.mem_cons_self p rest) hkid
        obtain ⟨k, hDec⟩ := Option.isSome_iff_exists.mp hDecS
        have hfm : List.filterMap kidDecode (p :: rest)
            = k :: List.filterMap kidDecode rest := by
          simp [List.filterMap_cons, kidDecode_of_kid p hkid, hDec]
        have hNotSeen : k ∉ st.seen := by
          apply h5
          rw [hfm]
          exact List.mem_cons_self k _
        have hCon : ¬ (st.seen.contains k = true) := by
          intro hc
          exact hNotSeen (by simpa using hc)
        have hRestAll : rest.all (fun q => !isKeyHashPush q) = true := by
          rw [hpk_cons_kid p rest hkid] at h2
          exact h2
        have hNodupTail : (List.filterMap kidDecode rest).Nodup := by
          rw [hfm, List.nodup_cons] at h4
          exact h4.2
        have hHeadNotTail : k ∉ List.filterMap kidDecode rest := by
          rw [hfm, List.nodup_cons] at h4
          exact h4.1
        have hOkTail :
            gaOk { st with nKeyIDs := st.nKeyIDs + 1, seen := k :: st.seen } rest := by
          refine ⟨fun _ => hRestAll, hpk_of_all_not_hash rest hRestAll, ?_, hNodupTail, ?_⟩
          · intro q hq hkq
            exact h3 q (List.mem_cons_of_mem p hq) hkq
          · intro k2 hk2
            intro hmem
            rcases List.mem_cons.mp hmem with rfl | hmem2
            · exact hHeadNotTail hk2
            · exact h5 k2 (by rw [hfm]; exact List.mem_cons_of_mem k hk2) hmem2
        simp only [gaLoop, gaStep_kid st p h20 hU, hDec, if_neg hCon]
        rw [ih _ hOkTail]
        simp only [Option.some.injEq, GAState.mk.injEq]
        refine ⟨?_, ?_, ?_⟩
        · simp [List.countP_cons, hkid]
          omega
        · simp [List.countP_cons, hhash]
        · rw [hfm, List.reverse_cons, List.append_assoc]
          simp
      · have hUf : isUint32 p.value = false := by simpa using hU
        have hkid : isKeyIDPush p = false := by
          unfold isKeyIDPush
          simp [hUf]
        have hhash : isKeyHashPush p = false := by
          unfold isKeyHashPush
          simp [h20]
        have hfm : List.filterMap kidDecode (p :: rest)
            = List.filterMap kidDecode rest := by
          simp [List.filterMap_cons, kidDecode_of_not_kid p hkid]
        have hOkTail : gaOk st rest := by
          refine ⟨?_, ?_, ?_, ?_, ?_⟩
          · intro hgt
            have hall := h1 hgt
            rw [List.all_cons] at hall
            exact ((Bool.and_eq_true _ _).mp hall).2
          · rw [hpk_cons_not_kid p rest hkid] at h2
            exact h2
          · intro q hq hkq
            exact h3 q (List.mem_cons_of_mem p hq) hkq
          · rw [hfm] at h4
            exact h4
          · intro k hk
            apply h5
            rw [hfm]
            exact hk
        simp only [gaLoop, gaStep_other st p h20 hUf]
        rw [ih _ hOkTail]
        simp only [Option.some.injEq, GAState.mk.injEq]
        refine ⟨?_, ?_, ?_⟩
        · simp [List.countP_cons, hkid]
        · simp [List.countP_cons, hhash]
        · rw [hfm]

/-- Characterization of isGeneralAztec: it holds exactly on the amended
declarative condition C1Amended. -/
theorem isGeneralAztec_iff (pops : List parsedOpcode) :
    isGeneralAztec pops = true ↔ C1Amended pops := by
  unfold isGeneralAztec C1Amended innerOps
  constructor
  · intro h
    split_ifs at h with a b c d e f
    cases hLoop : gaLoop ⟨0, 0, []⟩ ((pops.drop 1).take (pops.length - 3)) with
    | none =>
      simp only [hLoop] at h
      exact Bool.noConfusion h
    | some st =>
      simp only [hLoop] at h
      split_ifs at h with g1 g2
      have hOk := gaLoop_sound _ _ _ hLoop
      have hComp := gaLoop_complete _ _ hOk
      rw [hLoop] at hComp
      injection hComp with hst
      have hIDs : st.nKeyIDs =
          ((pops.drop 1).take (pops.length - 3)).countP (fun q => isKeyIDPush q) := by
        simp [hst]
      have hHashes : st.nKeyHashes =
          ((pops.drop 1).take (pops.length - 3)).countP (fun q => isKeyHashPush q) := by
        simp [hst]
      refine ⟨by omega, by simpa using b, by simpa using c, not_ne_iff.mp d,
        not_lt.mp e, ?_, hOk.2.1, hOk.2.2.1, hOk.2.2.2.1, ?_, ?_⟩
      · have hidx : pops.length - 2 - 1 = pops.length - 3 := by omega
        rw [hidx] at f
        exact (not_ne_iff.mp f).symm
      · rw [← hHashes]
        exact not_le.mp g1
      · rw [← hIDs]
        exact not_lt.mp g2
  · intro hC
    obtain ⟨c1, c2, c3, c4, c5, c6, c7, c8, c9, c10, c11⟩ := hC
    have hOk : gaOk ⟨0, 0, []⟩ ((pops.drop 1).take (pops.length - 3)) := by
      exact ⟨fun hgt => absurd hgt (Nat.lt_irrefl 0), c7, c8, c9,
        fun k hk => List.not_mem_nil k⟩
    have hLoop := gaLoop_complete _ _ hOk
    have hidx : pops.length - 2 - 1 = pops.length - 3 := by omega
    rw [if_neg (by omega), if_neg (by rw [c2]; decide), if_neg (by rw [c3]; decide),
      if_neg (not_ne_iff.mpr c4), if_neg (not_lt.mpr c5),
      if_neg (by rw [hidx]; exact not_ne_iff.mpr c6.symm)]
    simp only [hLoop, Nat.zero_add]
    rw [if_neg (not_le.mpr (by simpa using c10)), if_neg (not_lt.mpr (by simpa using c11))]

/-- C1 amended: for sequences not classified as NullData or the standard
2-of-3 shape, the classifier returns GeneralAdminAuth exactly under the
amended condition C1Amended, which differs from the original claim in that
intervening operations that are neither 20-byte hash pushes nor recognized
integer KeyID pushes are skipped rather than forbidden. -/
theorem spec_c1_general_admin_auth (pops : List parsedOpcode)
    (h1 : isNullData pops = false) (h2 : isAztec pops = false) :
    typeOfScript pops = ScriptClass.GeneralAztecTy ↔ C1Amended pops := by
  unfold typeOfScript
  simp only [h1, h2, Bool.false_eq_true, if_false]
  constructor
  · intro h
    by_cases hG : isGeneralAztec pops = true
    · exact (isGeneralAztec_iff pops).mp hG
    · rw [if_neg hG] at h
      split_ifs at h
  · intro hC
    rw [if_pos ((isGeneralAztec_iff pops).mpr hC)]

/-- C1 witness: a 3-of-3 generalized authorization script satisfies the
amended condition and classifies as GeneralAdminAuth. -/
theorem spec_c1_general_admin_auth_witness :
    typeOfScript c1wit = ScriptClass.GeneralAztecTy ∧ C1Amended c1wit := by
  have h := spec_c1_general_admin_auth c1wit (by decide) (by decide)
  exact ⟨h.mpr (by decide), by decide⟩

/-- C1 counterexample: a 7-operation script whose intervening operations
include a 33-byte push classifies as GeneralAdminAuth although the original
claim requires every intervening operation to be a 20-byte hash push or a
4-byte KeyID push. -/
theorem spec_c1_counterexample :
    typeOfScript c1cex = ScriptClass.GeneralAztecTy ∧
    isNullData c1cex = false ∧ isAztec c1cex = false ∧ ¬ C1Claim c1cex := by
  refine ⟨by decide, by decide, by decide, ?_⟩
  intro hc
  have h7 := hc.2.2.2.2.2.2.1
  exact absurd (h7 junkPop (by decide)) (by decide)

/-- The draft block always carries the zero nonce sentinel. -/
theorem draftBlock_nonce (E : Externals) (g : testGenerator) (tip : MsgBlock)
    (spend : Option Nat) : (draftBlock E g tip spend).header.nonce = 0 := by
  unfold draftBlock
  cases spend <;> rfl

/-- Sealing never changes the nonce. -/
theorem sealBlock_nonce (E : Externals) (d m : MsgBlock) :
    (sealBlock E d m).header.nonce = m.header.nonce := by
  unfold sealBlock
  split_ifs <;> rfl

/-- Sealing never changes the transaction list. -/
theorem sealBlock_transactions (E : Externals) (d m : MsgBlock) :
    (sealBlock E d m).transactions = m.transactions := by
  unfold sealBlock
  split_ifs <;> rfl

/-- The merkle root after sealing: recomputed from the munged transactions
exactly when the munged merkle root still equals the draft sentinel. -/
theorem sealBlock_merkle (E : Externals) (d m : MsgBlock) :
    (sealBlock E d m).header.merkleRoot =
      (if m.header.merkleRoot = d.header.merkleRoot
       then E.calcMerkleRoot m.transactions
       else m.header.merkleRoot) := by
  unfold sealBlock
  split_ifs <;> rfl

/-- Closed-form run of nextBlock on a present tip: the solver is consulted
exactly when the munged nonce is still the zero sentinel. -/
theorem nextBlock_run (E : Externals) (s : BlockHeader → Option Nat)
    (g : testGenerator) (n : String) (sp : Option Nat)
    (mg : List (MsgBlock → MsgBlock)) (tip : MsgBlock) (htip : g.tip = some tip) :
    nextBlock E s g n sp mg =
      (if (mungedOf (draftBlock E g tip sp) mg).header.nonce = 0 then
        match s (sealBlock E (draftBlock E g tip sp)
            (mungedOf (draftBlock E g tip sp) mg)).header with
        | some k => Except.ok (finishState E g n
            (withNonce (sealBlock E (draftBlock E g tip sp)
              (mungedOf (draftBlock E g tip sp) mg)) k))
        | none => Except.error ("Unable to solve block at height "
            ++ toString (g.tipHeight + 1))
      else Except.ok (finishState E g n
        (sealBlock E (draftBlock E g tip sp)
          (mungedOf (draftBlock E g tip sp) mg)))) := by
  have hcond : ((sealBlock E (draftBlock E g tip sp)
        (mungedOf (draftBlock E g tip sp) mg)).header.nonce
      = (draftBlock E g tip sp).header.nonce)
      ↔ ((mungedOf (draftBlock E g tip sp) mg).header.nonce = 0) := by
    rw [sealBlock_nonce, draftBlock_nonce]
  simp only [nextBlock, htip]
  by_cases h0 : (mungedOf (draftBlock E g tip sp) mg).header.nonce = 0
  · rw [if_pos (hcond.mpr h0), if_pos h0]
    cases s (sealBlock E (draftBlock E g tip sp)
        (mungedOf (draftBlock E g tip sp) mg)).header with
    | none => rfl
    | some k => rfl
  · rw [if_neg (fun hc => h0 (hcond.mp hc)), if_neg h0]

/-- C7: in nextBlock the draft nonce is the zero sentinel; on every
successful build the result keeps the munged transaction list and its
merkle root is recomputed from that final list exactly when no munger moved
the merkle-root field off the draft value; and the solver is consulted
exactly when no munger moved the nonce off the zero sentinel: with the
nonce moved, the result is solver-independent and keeps the munged nonce,
while with the nonce left at zero the outcome is decided by the solver,
whose failure aborts the build. -/
theorem spec_c7_munge_sentinels (E : Externals)
    (solveOracle : BlockHeader → Option Nat) (g : testGenerator)
    (blockName : String) (spend : Option Nat)
    (mungers : List (MsgBlock → MsgBlock)) (tip : MsgBlock)
    (htip : g.tip = some tip) :
    (draftBlock E g tip spend).header.nonce = 0 ∧
    (∀ g2 b, nextBlock E solveOracle g blockName spend mungers
        = Except.ok (g2, b) →
      b.transactions = (mungedOf (draftBlock E g tip spend) mungers).transactions ∧
      b.header.merkleRoot =
        (if (mungedOf (draftBlock E g tip spend) mungers).header.merkleRoot
            = (draftBlock E g tip spend).header.merkleRoot
         then E.calcMerkleRoot (mungedOf (draftBlock E g tip spend) mungers).transactions
         else (mungedOf (draftBlock E g tip spend) mungers).header.merkleRoot)) ∧
    ((mungedOf (draftBlock E g tip spend) mungers).header.nonce ≠ 0 →
      (∀ s2, nextBlock E s2 g blockName spend mungers
          = nextBlock E solveOracle g blockName spend mungers) ∧
      ∃ g2 b, nextBlock E solveOracle g blockName spend mungers
          = Except.ok (g2, b) ∧
        b.header.nonce = (mungedOf (draftBlock E g tip spend) mungers).header.nonce) ∧
    ((mungedOf (draftBlock E g tip spend) mungers).header.nonce = 0 →
      (solveOracle (sealBlock E (draftBlock E g tip spend)
          (mungedOf (draftBlock E g tip spend) mungers)).header = none →
        nextBlock E solveOracle g blockName spend mungers =
          Except.error ("Unable to solve block at height "
            ++ toString (g.tipHeight + 1))) ∧
      (∀ k, solveOracle (sealBlock E (draftBlock E g tip spend)
          (mungedOf (draftBlock E g tip spend) mungers)).header = some k →
        ∃ g2 b, nextBlock E solveOracle g blockName spend mungers
            = Except.ok (g2, b) ∧ b.header.nonce = k)) := by
  have hrun := nextBlock_run E solveOracle g blockName spend mungers tip htip
  refine ⟨draftBlock_nonce E g tip spend, ?_, ?_, ?_⟩
  · intro g2 b hok
    rw [hrun] at hok
    by_cases h0 : (mungedOf (draftBlock E g tip spend) mungers).header.nonce = 0
    · rw [if_pos h0] at hok
      cases hs : solveOracle (sealBlock E (draftBlock E g tip spend)
          (mungedOf (draftBlock E g tip spend) mungers)).header with
      | none =>
        rw [hs] at hok
        exact Except.noConfusion hok
      | some k =>
        rw [hs] at hok
        injection hok with hpair
        have hb : b = (finishState E g blockName (withNonce (sealBlock E
            (draftBlock E g tip spend) (mungedOf (draftBlock E g tip spend)
              mungers)) k)).2 := (congrArg Prod.snd hpair).symm
        rw [hb]
        exact ⟨sealBlock_transactions E _ _, sealBlock_merkle E _ _⟩
    · rw [if_neg h0] at hok
      injection hok with hpair
      have hb : b = (finishState E g blockName (sealBlock E
          (draftBlock E g tip spend)
          (mungedOf (draftBlock E g tip spend) mungers))).2 :=
        (congrArg Prod.snd hpair).symm
      rw [hb]
      exact ⟨sealBlock_transactions E _ _, sealBlock_merkle E _ _⟩
  · intro h0
    refine ⟨?_, ?_⟩
    · intro s2
      rw [nextBlock_run E s2 g blockName spend mungers tip htip, hrun,
        if_neg h0, if_neg h0]
    · rw [hrun, if_neg h0]
      exact ⟨_, _, rfl, sealBlock_nonce E _ _⟩
  · intro h0
    refine ⟨?_, ?_⟩
    · intro hs
      rw [hrun, if_pos h0, hs]
    · intro k hs
      rw [hrun, if_pos h0, hs]
      exact ⟨_, _, rfl, rfl⟩

/-- C7 witness: on a concrete generator with no mungers the draft nonce is
the sentinel and the solver result becomes the block nonce. -/
theorem spec_c7_munge_sentinels_witness :
    (draftBlock extWit (makeTestGenerator extWit genesisWit)
        (signedGenesis extWit genesisWit) none).header.nonce = 0 ∧
    (∃ g2 b, nextBlock extWit (fun _ => some 5)
        (makeTestGenerator extWit genesisWit) "b1" none []
        = Except.ok (g2, b) ∧ b.header.nonce = 5) := by
  have h := spec_c7_munge_sentinels extWit (fun _ => some 5)
    (makeTestGenerator extWit genesisWit) "b1" none []
    (signedGenesis extWit genesisWit) rfl
  exact ⟨h.1, (h.2.2.2 rfl).2 5 rfl⟩

/-- C10: setTip with a name absent from both maps reports no error: it is a
total function that silently sets the tip block to none (the Go nil) and
the tip height to the zero value, and any subsequent nextBlock on that
state fails with the nil-dereference it models. -/
theorem spec_c10_settip_unregistered (g : testGenerator) (name : String)
    (h1 : lookupName g.blocksByName name = none)
    (h2 : lookupName g.blockHeights name = none) :
    (setTip g name).tip = none ∧ (setTip g name).tipHeight = 0 ∧
    (setTip g name).tipName = name ∧
    (∀ E solveOracle name2 spend mungers,
      nextBlock E solveOracle (setTip g name) name2 spend mungers =
        Except.error "runtime error: nil pointer dereference") := by
  refine ⟨by simp [setTip, h1], by simp [setTip, h2], by simp [setTip], ?_⟩
  intro E s n2 sp mg
  have htip : (setTip g name).tip = none := by simp [setTip, h1]
  simp only [nextBlock, htip]

/-- C10 witness: on the freshly created generator, an unregistered name
yields a nil tip at height 0 and a failing nextBlock. -/
theorem spec_c10_settip_unregistered_witness :
    (setTip (makeTestGenerator extWit genesisWit) "nosuch").tip = none ∧
    (setTip (makeTestGenerator extWit genesisWit) "nosuch").tipHeight = 0 ∧
    (setTip (makeTestGenerator extWit genesisWit) "nosuch").tipName = "nosuch" ∧
    nextBlock extWit (fun _ => some 5)
        (setTip (makeTestGenerator extWit genesisWit) "nosuch") "b1" none []
      = Except.error "runtime error: nil pointer dereference" := by
  have h := spec_c10_settip_unregistered (makeTestGenerator extWit genesisWit)
    "nosuch" (by decide) (by decide)
  exact ⟨h.1, h.2.1, h.2.2.1, h.2.2.2 extWit (fun _ => some 5) "b1" none []⟩

/-- C9: Generate is all-or-nothing: every run yields either a nonempty test
sequence with no error, or no test sequence with a single error; internal
panics (solver failure, nil tips, out-of-range reads) are converted by the
recover wrapper into the error outcome and never yield a partial sequence. -/
theorem spec_c9_generate_all_or_nothing (E : Externals)
    (solveOracle : BlockHeader → Option Nat) (genesis : MsgBlock) (cbm : Nat) :
    (∃ t, GenerateM E solveOracle genesis cbm = (some t, none) ∧ t ≠ []) ∨
    (∃ e, GenerateM E solveOracle genesis cbm = (none, some e)) := by
  unfold GenerateM
  cases hB : generateBody E solveOracle genesis cbm with
  | error e => exact Or.inr ⟨e, rfl⟩
  | ok t =>
    refine Or.inl ⟨t, rfl, ?_⟩
    unfold generateBody at hB
    simp only [bind, Except.bind] at hB
    cases h1 : maturityLoop E solveOracle cbm 0 (makeTestGenerator E genesis) [] with
    | error e =>
      simp only [h1] at hB
      exact Except.noConfusion hB
    | ok pr1 =>
      obtain ⟨g1, ti⟩ := pr1
      simp only [h1] at hB
      cases h2 : collectLoop cbm g1 [E.mkOut (signedGenesis E genesis) 0 0,
          E.mkOut (signedGenesis E genesis) 0 1,
          E.mkOut (signedGenesis E genesis) 0 2] with
      | error e =>
        simp only [h2] at hB
        exact Except.noConfusion hB
      | ok pr2 =>
        obtain ⟨g2, outs⟩ := pr2
        simp only [h2] at hB
        cases h3 : buildPhase E solveOracle g2 outs with
        | error e =>
          simp only [h3] at hB
          exact Except.noConfusion hB
        | ok rest =>
          simp only [h3, pure, Except.pure, Except.ok.injEq] at hB
          rw [← hB]
          exact List.cons_ne_nil ti rest

/-- A successful interval scan returns a nonce in the scanned window that
satisfies the condition. -/
theorem scanRange_some (cond : Nat → Bool) :
    ∀ (fuel lo n : Nat), scanRange cond fuel lo = some n →
      lo ≤ n ∧ n ≤ lo + fuel - 1 ∧ cond n = true := by
  intro fuel
  induction fuel with
  | zero =>
    intro lo n h
    exact Option.noConfusion h
  | succ f ih =>
    intro lo n h
    rw [scanRange] at h
    by_cases hc : cond lo = true
    · rw [if_pos hc] at h
      injection h with h
      subst h
      exact ⟨le_refl _, by omega, hc⟩
    · rw [if_neg hc] at h
      obtain ⟨a, b, c⟩ := ih (lo + 1) n h
      exact ⟨by omega, by omega, c⟩

/-- A first hit of a worker lies in its inclusive range and satisfies the
difficulty condition. -/
theorem firstHit_some (cond : Nat → Bool) (lo hi n : Nat)
    (h : firstHit cond lo hi = some n) :
    lo ≤ n ∧ n ≤ hi ∧ cond n = true := by
  unfold firstHit at h
  obtain ⟨a, b, c⟩ := scanRange_some cond _ _ _ h
  exact ⟨a, by omega, c⟩

/-- The per-worker span times the worker count stays within the nonce span. -/
theorem solverNpc_mul_le (N : Nat) : solverNpc N * N ≤ 2 ^ 32 - 2 := by
  unfold solverNpc maxUint32
  exact (Nat.div_mul_le_self _ _).trans (by omega)

/-- With at most 2^32 - 2 workers each worker gets at least one nonce. -/
theorem solverNpc_pos (N : Nat) (h1 : 1 ≤ N) (h2 : N ≤ 2 ^ 32 - 2) :
    1 ≤ solverNpc N := by
  unfold solverNpc maxUint32
  rw [Nat.one_le_div_iff (by omega)]
  omega

/-- The range starts involve no unsigned wraparound. -/
theorem rangeStart_eq (N i : Nat) (hi : i ≤ N) :
    rangeStart N i = 1 + solverNpc N * i := by
  unfold rangeStart uint32Mod
  apply Nat.mod_eq_of_lt
  have hm : solverNpc N * i ≤ solverNpc N * N := Nat.mul_le_mul_left _ hi
  have hb := solverNpc_mul_le N
  omega

/-- The non-final range stops involve no unsigned wraparound. -/
theorem rangeStop_eq (N i : Nat) (h1 : 1 ≤ N) (hi : i < N - 1) :
    rangeStop N i = solverNpc N * (i + 1) := by
  unfold rangeStop
  rw [if_neg (by omega)]
  have hx : solverNpc N * (i + 1) ≤ 2 ^ 32 - 2 :=
    le_trans (Nat.mul_le_mul_left _ (by omega : i + 1 ≤ N)) (solverNpc_mul_le N)
  unfold uint32Mod
  rw [Nat.mod_eq_of_lt (show 1 + solverNpc N * (i + 1) < 2 ^ 32 by omega)]
  have hsum : 1 + solverNpc N * (i + 1) + (2 ^ 32 - 1)
      = solverNpc N * (i + 1) + 2 ^ 32 := by omega
  rw [hsum, Nat.add_mod_right, Nat.mod_eq_of_lt (by omega)]

/-- The final range stops at the maximal nonce. -/
theorem rangeStop_last (N : Nat) : rangeStop N (N - 1) = maxUint32 := by
  unfold rangeStop
  rw [if_pos rfl]

/-- The product over the worker count splits off the last worker. -/
theorem solverNpc_last_split (N : Nat) (h1 : 1 ≤ N) :
    solverNpc N * (N - 1) + solverNpc N = solverNpc N * N := by
  have hk : N - 1 + 1 = N := by omega
  calc solverNpc N * (N - 1) + solverNpc N
      = solverNpc N * (N - 1 + 1) := by rw [Nat.mul_succ]
    _ = solverNpc N * N := by rw [hk]

/-- Every worker range is nonempty and lies inside [1, 2^32 - 1]. -/
theorem range_bounds (N i : Nat) (h1 : 1 ≤ N) (h2 : N ≤ 2 ^ 32 - 2)
    (hi : i < N) :
    1 ≤ rangeStart N i ∧ rangeStart N i ≤ rangeStop N i ∧
      rangeStop N i ≤ maxUint32 := by
  have hnpc := solverNpc_pos N h1 h2
  have hmul := solverNpc_mul_le N
  by_cases hlast : i = N - 1
  · subst hlast
    rw [rangeStart_eq N (N - 1) (by omega), rangeStop_last N]
    have hsplit := solverNpc_last_split N h1
    unfold maxUint32
    omega
  · rw [rangeStart_eq N i (by omega), rangeStop_eq N i h1 (by omega)]
    have hstep : solverNpc N * (i + 1) = solverNpc N * i + solverNpc N :=
      Nat.mul_succ _ _
    have hle : solverNpc N * (i + 1) ≤ solverNpc N * N :=
      Nat.mul_le_mul_left _ (by omega)
    unfold maxUint32
    omega

/-- Consecutive worker ranges are contiguous. -/
theorem range_contiguous (N i : Nat) (h1 : 1 ≤ N) (hi : i + 1 < N) :
    rangeStart N (i + 1) = rangeStop N i + 1 := by
  rw [rangeStart_eq N (i + 1) (by omega), rangeStop_eq N i h1 (by omega)]
  omega

/-- Strict ordering across distinct worker ranges. -/
theorem range_ordered (N j k : Nat) (h1 : 1 ≤ N) (hjk : j < k) (hk : k < N) :
    rangeStop N j < rangeStart N k := by
  rw [rangeStop_eq N j h1 (by omega), rangeStart_eq N k (by omega)]
  have hmono : solverNpc N * (j + 1) ≤ solverNpc N * k :=
    Nat.mul_le_mul_left _ (by omega)
  omega

/-- Every nonce in the full span lies in exactly one worker range. -/
theorem range_cover (N n : Nat) (h1 : 1 ≤ N) (h2 : N ≤ 2 ^ 32 - 2)
    (hn1 : 1 ≤ n) (hn2 : n ≤ maxUint32) :
    ∃! i, i < N ∧ rangeStart N i ≤ n ∧ n ≤ rangeStop N i := by
  have hnpc := solverNpc_pos N h1 h2
  have hmul := solverNpc_mul_le N
  have hex : ∃ i, i < N ∧ rangeStart N i ≤ n ∧ n ≤ rangeStop N i := by
    by_cases hq : (n - 1) / solverNpc N ≤ N - 1
    · refine ⟨(n - 1) / solverNpc N, by omega, ?_, ?_⟩
      · rw [rangeStart_eq N _ (by omega)]
        have hdm := Nat.div_add_mod (n - 1) (solverNpc N)
        omega
      · by_cases hql : (n - 1) / solverNpc N < N - 1
        · rw [rangeStop_eq N _ h1 hql]
          have hdm := Nat.div_add_mod (n - 1) (solverNpc N)
          have hlt := Nat.mod_lt (n - 1) (show 0 < solverNpc N by omega)
          have hstep : solverNpc N * ((n - 1) / solverNpc N + 1)
              = solverNpc N * ((n - 1) / solverNpc N) + solverNpc N :=
            Nat.mul_succ _ _
          omega
        · have hqe : (n - 1) / solverNpc N = N - 1 := by omega
          rw [hqe, rangeStop_last N]
          exact hn2
    · refine ⟨N - 1, by omega, ?_, ?_⟩
      · rw [rangeStart_eq N _ (by omega)]
        have hge : N ≤ (n - 1) / solverNpc N := by omega
        have hNle := (Nat.le_div_iff_mul_le
          (show 0 < solverNpc N by omega)).mp hge
        have hsplit := solverNpc_last_split N h1
        have hcomm : N * solverNpc N = solverNpc N * N := Nat.mul_comm _ _
        omega
      · rw [rangeStop_last N]
        exact hn2
  obtain ⟨i, hi⟩ := hex
  refine ⟨i, hi, ?_⟩
  intro j hj
  by_contra hne
  rcases Nat.lt_or_ge j i with hlt | hge
  · have hord := range_ordered N j i h1 hlt hi.1
    have := hj.2.2
    have := hi.2.1
    omega
  · have hlt2 : i < j := by omega
    have hord := range_ordered N i j h1 hlt2 hj.1
    have := hi.2.2
    have := hj.2.1
    omega

/-- C8: any nonce solveBlock can report lies in [1, 2^32 - 1] (never the
zero sentinel) and its header hash is at most the target; the per-worker
ranges begin at 1, end at 2^32 - 1, are nonempty, contiguous, and every
nonce of [1, 2^32 - 1] lies in exactly one of them. -/
theorem spec_c8_solve_block (hashH : BlockHeader → Nat) (target : Nat)
    (hdr : BlockHeader) (N : Nat) (h1 : 1 ≤ N) (h2 : N ≤ 2 ^ 32 - 2) :
    (∀ n, solveReports hashH target hdr N n →
      1 ≤ n ∧ n ≤ maxUint32 ∧ hashH (setNonce hdr n) ≤ target) ∧
    rangeStart N 0 = 1 ∧
    rangeStop N (N - 1) = maxUint32 ∧
    (∀ i, i < N → 1 ≤ rangeStart N i ∧ rangeStart N i ≤ rangeStop N i ∧
      rangeStop N i ≤ maxUint32) ∧
    (∀ i, i + 1 < N → rangeStart N (i + 1) = rangeStop N i + 1) ∧
    (∀ n, 1 ≤ n → n ≤ maxUint32 →
      ∃! i, i < N ∧ rangeStart N i ≤ n ∧ n ≤ rangeStop N i) := by
  refine ⟨?_, ?_, rangeStop_last N, fun i hi => range_bounds N i h1 h2 hi,
    fun i hi => range_contiguous N i h1 hi,
    fun n hn1 hn2 => range_cover N n h1 h2 hn1 hn2⟩
  · intro n hrep
    obtain ⟨i, hiN, hres⟩ := hrep
    obtain ⟨ha, hb, hc⟩ := firstHit_some _ _ _ _ hres
    obtain ⟨b1, b2, b3⟩ := range_bounds N i h1 h2 hiN
    have hcond : hashH (setNonce hdr n) ≤ target := by
      unfold workerResult at hres
      unfold solveCond at hc
      exact of_decide_eq_true hc
    exact ⟨by omega, by omega, hcond⟩
  · rw [rangeStart_eq N 0 (by omega), Nat.mul_zero]

/-- C8 witness: with one worker the single range is [1, 2^32 - 1] and the
properties hold at concrete parameters. -/
theorem spec_c8_solve_block_witness :
    (∀ n, solveReports (fun _ => 0) 0 genesisWit.header 1 n →
      1 ≤ n ∧ n ≤ maxUint32 ∧ (fun _ => 0 : BlockHeader → Nat)
        (setNonce genesisWit.header n) ≤ 0) ∧
    rangeStart 1 0 = 1 ∧
    rangeStop 1 (1 - 1) = maxUint32 ∧
    (∀ i, i < 1 → 1 ≤ rangeStart 1 i ∧ rangeStart 1 i ≤ rangeStop 1 i ∧
      rangeStop 1 i ≤ maxUint32) ∧
    (∀ i, i + 1 < 1 → rangeStart 1 (i + 1) = rangeStop 1 i + 1) ∧
    (∀ n, 1 ≤ n → n ≤ maxUint32 →
      ∃! i, i < 1 ∧ rangeStart 1 i ≤ n ∧ n ≤ rangeStop 1 i) :=
  spec_c8_solve_block (fun _ => 0) 0 genesisWit.header 1 (by norm_num)
    (by norm_num)
